import Mathlib

/-!
Verification of the leak-tester core against its specification.

The development shallowly embeds, over exact rational arithmetic:
* `controllers/pressure_calibration.py` — calibration points and the
  current→pressure conversions (`current_to_pressure_linear`,
  `current_to_pressure_multipoint`);
* `terminal_leak_test.py` — the leak-rate unit conversion
  (`_calculate_leak_rate`);
* `services/test_runner.py` — the test-sequencing state machine
  (`TestRunner.run_test` and its phase methods), with actuator and sensor
  behaviour supplied by an explicit environment.
-/

/-! ## Calibration data model (`pressure_calibration.py`) -/

/-! ## Leak-rate unit conversion (`terminal_leak_test.py`) -/

/-! helper lemmas -/

/-! ## Concrete calibration configurations used in claims -/

/-! ## Test runner state machine (`services/test_runner.py`) -/

/-- The `CalibrationPoint` dataclass: a single current→pressure calibration pair. -/
structure CalibrationPoint where
  current_ma : ℚ
  pressure_psi : ℚ
deriving DecidableEq, Repr

instance : Inhabited CalibrationPoint := ⟨⟨0, 0⟩⟩

/-- Comparison key used by `sorted(self.calibration_points, key=lambda p: p.current_ma)`. -/
def calLE (a b : CalibrationPoint) : Prop := a.current_ma ≤ b.current_ma

instance : DecidableRel calLE :=
  fun a b => inferInstanceAs (Decidable (a.current_ma ≤ b.current_ma))

instance : IsTotal CalibrationPoint calLE := ⟨fun a b => le_total a.current_ma b.current_ma⟩

instance : IsTrans CalibrationPoint calLE := ⟨fun _ _ _ hab hbc => le_trans hab hbc⟩

/-- Stable sort of the calibration points by current, modelling Python's
`sorted(points, key=lambda p: p.current_ma)`. -/
def sortPoints (l : List CalibrationPoint) : List CalibrationPoint := l.insertionSort calLE

/-- The state of a `PressureCalibration` object: its calibration point list and
the configured pressure/current bounds. -/
structure PressureCalibration where
  calibration_points : List CalibrationPoint
  min_pressure_psi : ℚ
  max_pressure_psi : ℚ
  min_current_ma : ℚ
  max_current_ma : ℚ
deriving Repr

/-- Embedding of `PressureCalibration.current_to_pressure_linear`: the line through the two
configured bounds, with the degenerate zero-current-range guard. -/
def current_to_pressure_linear (cal : PressureCalibration) (current_ma : ℚ) : ℚ :=
  let current_range := cal.max_current_ma - cal.min_current_ma
  let pressure_range := cal.max_pressure_psi - cal.min_pressure_psi
  if current_range = 0 then
    cal.min_pressure_psi
  else
    let slope := pressure_range / current_range
    let intercept := cal.min_pressure_psi - slope * cal.min_current_ma
    slope * current_ma + intercept

/-- Linear interpolation between two calibration points, including the
`x2 == x1` coincident-current guard of the Python loop body. -/
def interpSegment (p q : CalibrationPoint) (current_ma : ℚ) : ℚ :=
  if q.current_ma = p.current_ma then p.pressure_psi
  else p.pressure_psi +
    (q.pressure_psi - p.pressure_psi) * (current_ma - p.current_ma) /
      (q.current_ma - p.current_ma)

/-- The bracketing-interval search loop of `current_to_pressure_multipoint`:
`for i in range(len(points)-1): if points[i].current_ma <= c <= points[i+1].current_ma: ...`.
Returns `none` when no consecutive pair brackets the input. -/
def interpScan : List CalibrationPoint → ℚ → Option ℚ
  | p :: q :: rest, c =>
    if p.current_ma ≤ c ∧ c ≤ q.current_ma then some (interpSegment p q c)
    else interpScan (q :: rest) c
  | _, _ => none

/-- Embedding of `PressureCalibration.current_to_pressure_multipoint`: fall back to the
linear map when fewer than 2 points exist; otherwise sort the points, clamp at
either end, and interpolate in the bracketing segment (with the unreachable
fall-through to the linear map kept, as in the source). -/
def current_to_pressure_multipoint (cal : PressureCalibration) (current_ma : ℚ) : ℚ :=
  if cal.calibration_points.length < 2 then current_to_pressure_linear cal current_ma
  else if current_ma ≤ (sortPoints cal.calibration_points).headI.current_ma then
    (sortPoints cal.calibration_points).headI.pressure_psi
  else if (sortPoints cal.calibration_points).getLastI.current_ma ≤ current_ma then
    (sortPoints cal.calibration_points).getLastI.pressure_psi
  else
    (interpScan (sortPoints cal.calibration_points) current_ma).getD
      (current_to_pressure_linear cal current_ma)

/-- Embedding of `TerminalLeakTester._calculate_leak_rate`:
`abs(test_volume_cc * pressure_decay_psi_s * 60.0 / 14.69)` in sccm. -/
def calculate_leak_rate (test_volume_cc : ℚ) (pressure_decay_psi_s : ℚ) : ℚ :=
  |test_volume_cc * pressure_decay_psi_s * 60 / (1469 / 100)|

/-- Currents strictly increase along the list. -/
def CurStrict (s : List CalibrationPoint) : Prop :=
  List.Chain' (fun a b => a.current_ma < b.current_ma) s

/-- Pressures are non-decreasing along the list. -/
def PrMono (s : List CalibrationPoint) : Prop :=
  List.Chain' (fun a b => a.pressure_psi ≤ b.pressure_psi) s

/-- The two-point configuration of the spec's two-point exactness property. -/
def cal8 : PressureCalibration :=
  { calibration_points := [⟨4, 0⟩, ⟨20, 100⟩]
    min_pressure_psi := 0, max_pressure_psi := 100
    min_current_ma := 4, max_current_ma := 20 }

/-- A configuration with no calibration points (multipoint falls back to the
configured linear map). -/
def cal0 : PressureCalibration :=
  { calibration_points := []
    min_pressure_psi := 0, max_pressure_psi := 100
    min_current_ma := 4, max_current_ma := 20 }

/-- A degenerate configuration: no points and a zero configured current range. -/
def calDegenerate : PressureCalibration :=
  { calibration_points := []
    min_pressure_psi := 7, max_pressure_psi := 9
    min_current_ma := 4, max_current_ma := 4 }

/-- Two calibration points with coincident currents. -/
def calCoincident : PressureCalibration :=
  { calibration_points := [⟨5, 1⟩, ⟨5, 2⟩]
    min_pressure_psi := 0, max_pressure_psi := 100
    min_current_ma := 4, max_current_ma := 20 }

/-- The `TestPhase` enumeration. -/
inductive TestPhase
  | READY
  | EXTENDING_CYLINDERS
  | FILLING_DUT
  | STABILIZING
  | ISOLATING
  | TESTING
  | EVALUATING
  | EXHAUSTING
  | RETRACTING_CYLINDERS
  | COMPLETE
  | ERROR
deriving DecidableEq, Repr

/-- The `TestResult` enumeration. -/
inductive TestResult
  | NONE
  | PASS
  | FAIL
  | ERROR
deriving DecidableEq, Repr

/-- The `TestConfig` dataclass (all timing/pressure parameters). -/
structure TestConfig where
  cylinder_extend_time : ℚ
  fill_time : ℚ
  stabilize_time : ℚ
  test_duration : ℚ
  exhaust_time : ℚ
  cylinder_retract_time : ℚ
  target_fill_pressure : ℚ
  pressure_tolerance : ℚ
  max_leak_rate : ℚ
  max_pressure : ℚ
  pressure_timeout : ℚ
deriving DecidableEq, Repr

/-- The default `TestConfig` values of the dataclass. -/
def defaultConfig : TestConfig :=
  { cylinder_extend_time := 3, fill_time := 5, stabilize_time := 10
    test_duration := 30, exhaust_time := 5, cylinder_retract_time := 3
    target_fill_pressure := 10, pressure_tolerance := 1/2, max_leak_rate := 1/10
    max_pressure := 15, pressure_timeout := 60 }

/-- Result of one hardware/actuator call: returned `True`, returned `False`,
or raised an exception (caught by the phase's `except` block). -/
inductive ActOutcome
  | ok
  | failed
  | raised
deriving DecidableEq, Repr

/-- The run's environment: actuator outcomes and pressure-sensor readings.
A `none` reading models `read_pressure_psi` raising an exception. -/
structure Env where
  extendOutcome : ActOutcome
  fillOutcome : ActOutcome
  fillPressure : ℚ
  stabilizeReadings : ℕ → Option ℚ
  isolateOutcome : ActOutcome
  testStartPressure : ℚ
  testSafetyReadings : ℕ → Option ℚ
  testReadings : ℕ → Option ℚ
  exhaustOutcome : ActOutcome
  retractOutcome : ActOutcome

/-- Observable state of a `TestRunner` during `run_test`, plus the history of
`test_result` assignments and the per-phase safety-check counters used to
state the abort-immediacy property. -/
structure RunState where
  result : TestResult
  resultHistory : List TestResult
  phaseTrace : List TestPhase
  currentPhase : TestPhase
  pressureReadings : List (ℚ × ℚ)
  stabilizeChecks : ℕ
  testChecks : ℕ
deriving DecidableEq, Repr

/-- `TestRunner._set_phase`: record the transition only when the phase changes. -/
def setPhase (s : RunState) (p : TestPhase) : RunState :=
  if s.currentPhase = p then s
  else { s with currentPhase := p, phaseTrace := s.phaseTrace ++ [p] }

/-- Assignment to `self.test_result`, recorded in the history. -/
def setResult (s : RunState) (r : TestResult) : RunState :=
  { s with result := r, resultHistory := s.resultHistory ++ [r] }

/-- Initial state at the top of `run_test` (after `test_result = NONE` and
`pressure_readings = []` are reset). -/
def initState : RunState :=
  { result := TestResult.NONE, resultHistory := [TestResult.NONE], phaseTrace := []
    currentPhase := TestPhase.READY, pressureReadings := [], stabilizeChecks := 0
    testChecks := 0 }

/-- Embedding of `TestRunner._check_safety_limits`: `False` when the pressure read raises
or the pressure strictly exceeds `config.max_pressure`. -/
def check_safety_limits (cfg : TestConfig) (reading : Option ℚ) : Bool :=
  match reading with
  | none => false
  | some pressure => if pressure > cfg.max_pressure then false else true

/-- Number of iterations of the 2-second stabilize polling loop
(`while (time.time() - stabilize_start) < stabilize_time` with `sleep(2.0)`). -/
def stabilizeIters (t : ℚ) : ℕ := (⌈t / 2⌉).toNat

/-- Number of iterations of the 1 Hz test sampling loop. -/
def testIters (t : ℚ) : ℕ := (⌈t⌉).toNat

/-- The `_phase_stabilize` polling loop: safety check each iteration, abort
with `ERROR` on the iteration whose check fails. -/
def stabilize_loop (cfg : TestConfig) (readings : ℕ → Option ℚ) :
    ℕ → ℕ → RunState → RunState × Bool
  | _, 0, s => (s, true)
  | i, n+1, s =>
    if check_safety_limits cfg (readings i) then
      stabilize_loop cfg readings (i+1) n
        { s with stabilizeChecks := s.stabilizeChecks + 1 }
    else
      (setResult { s with stabilizeChecks := s.stabilizeChecks + 1 } TestResult.ERROR, false)

/-- The `_phase_test` sampling loop: safety check, then a sample read that may
raise; the accumulated readings are stored only when the loop completes. -/
def test_loop (cfg : TestConfig) (safetyReadings sampleReadings : ℕ → Option ℚ) :
    ℕ → ℕ → List (ℚ × ℚ) → RunState → RunState × Bool
  | _, 0, acc, s => ({ s with pressureReadings := acc }, true)
  | i, n+1, acc, s =>
    if check_safety_limits cfg (safetyReadings i) then
      match sampleReadings i with
      | none => (setResult { s with testChecks := s.testChecks + 1 } TestResult.ERROR, false)
      | some p =>
        test_loop cfg safetyReadings sampleReadings (i+1) n (acc ++ [((i : ℚ), p)])
          { s with testChecks := s.testChecks + 1 }
    else
      (setResult { s with testChecks := s.testChecks + 1 } TestResult.ERROR, false)

/-- The endpoint leak rate of `_phase_evaluate`:
`pressure_drop / duration if duration > 0 else 0`. -/
def endpoint_leak_rate (readings : List (ℚ × ℚ)) : ℚ :=
  if 0 < readings.getLastI.1 then
    (readings.headI.2 - readings.getLastI.2) / readings.getLastI.1
  else 0

/-- Outcome of `_phase_evaluate`: the result set, the returned bool, and the
leak rate stored in `test_data` (none when evaluation aborted early). -/
structure EvalOutcome where
  result : TestResult
  ok : Bool
  leak_rate : Option ℚ
deriving DecidableEq, Repr

/-- Embedding of `TestRunner._phase_evaluate` as a function of the recorded readings. -/
def evaluate_readings (cfg : TestConfig) (readings : List (ℚ × ℚ)) : EvalOutcome :=
  if readings.length < 2 then
    { result := TestResult.ERROR, ok := false, leak_rate := none }
  else if endpoint_leak_rate readings ≤ cfg.max_leak_rate then
    { result := TestResult.PASS, ok := true, leak_rate := some (endpoint_leak_rate readings) }
  else
    { result := TestResult.FAIL, ok := true, leak_rate := some (endpoint_leak_rate readings) }

/-- Embedding of `_phase_extend_cylinders`: actuator failure or exception sets `ERROR`. -/
def phase_extend_cylinders (env : Env) (s : RunState) : RunState × Bool :=
  match env.extendOutcome with
  | ActOutcome.ok => (setPhase s TestPhase.EXTENDING_CYLINDERS, true)
  | _ => (setResult (setPhase s TestPhase.EXTENDING_CYLINDERS) TestResult.ERROR, false)

/-- Embedding of `_phase_fill_dut`: an underfilled pressure only logs a warning, so success
of the valve operation alone decides the outcome. -/
def phase_fill_dut (env : Env) (s : RunState) : RunState × Bool :=
  match env.fillOutcome with
  | ActOutcome.ok => (setPhase s TestPhase.FILLING_DUT, true)
  | _ => (setResult (setPhase s TestPhase.FILLING_DUT) TestResult.ERROR, false)

/-- Embedding of `_phase_stabilize`. -/
def phase_stabilize (env : Env) (cfg : TestConfig) (s : RunState) : RunState × Bool :=
  stabilize_loop cfg env.stabilizeReadings 0 (stabilizeIters cfg.stabilize_time)
    (setPhase s TestPhase.STABILIZING)

/-- Embedding of `_phase_isolate`. -/
def phase_isolate (env : Env) (s : RunState) : RunState × Bool :=
  match env.isolateOutcome with
  | ActOutcome.ok => (setPhase s TestPhase.ISOLATING, true)
  | _ => (setResult (setPhase s TestPhase.ISOLATING) TestResult.ERROR, false)

/-- Embedding of `_phase_test`. -/
def phase_test (env : Env) (cfg : TestConfig) (s : RunState) : RunState × Bool :=
  test_loop cfg env.testSafetyReadings env.testReadings 0 (testIters cfg.test_duration)
    [(0, env.testStartPressure)] (setPhase s TestPhase.TESTING)

/-- Embedding of `_phase_evaluate`. -/
def phase_evaluate (cfg : TestConfig) (s : RunState) : RunState × Bool :=
  (setResult (setPhase s TestPhase.EVALUATING)
      (evaluate_readings cfg s.pressureReadings).result,
   (evaluate_readings cfg s.pressureReadings).ok)

/-- Embedding of `_phase_exhaust`: failures are logged but change no state. -/
def phase_exhaust (env : Env) (s : RunState) : RunState × Bool :=
  (setPhase s TestPhase.EXHAUSTING,
   match env.exhaustOutcome with
   | ActOutcome.ok => true
   | _ => false)

/-- Embedding of `_phase_retract_cylinders`: failures are logged but change no state. -/
def phase_retract_cylinders (env : Env) (s : RunState) : RunState × Bool :=
  (setPhase s TestPhase.RETRACTING_CYLINDERS,
   match env.retractOutcome with
   | ActOutcome.ok => true
   | _ => false)

/-- Short-circuiting sequencing of one phase call: stop at the phase's state
when it reports failure, otherwise continue. -/
def stepThen (r : RunState × Bool) (k : RunState → RunState) : RunState :=
  match r with
  | (s, false) => s
  | (s, true) => k s

/-- The short-circuiting primary sequence of `run_test` (the nested `if`s). -/
def run_primary (env : Env) (cfg : TestConfig) (s0 : RunState) : RunState :=
  stepThen (phase_extend_cylinders env s0) fun s =>
  stepThen (phase_fill_dut env s) fun s =>
  stepThen (phase_stabilize env cfg s) fun s =>
  stepThen (phase_isolate env s) fun s =>
  stepThen (phase_test env cfg s) fun s =>
  (phase_evaluate cfg s).1

/-- The unconditional tail of `run_test`: cleanup phases, the `NONE → ERROR`
defaulting, and the final `COMPLETE` transition. -/
def cleanup_finish (env : Env) (s : RunState) : RunState :=
  if ((phase_retract_cylinders env (phase_exhaust env s).1).1).result = TestResult.NONE then
    setPhase (setResult (phase_retract_cylinders env (phase_exhaust env s).1).1 TestResult.ERROR)
      TestPhase.COMPLETE
  else
    setPhase ((phase_retract_cylinders env (phase_exhaust env s).1).1) TestPhase.COMPLETE

/-- Embedding of `TestRunner.run_test`: primary sequence then unconditional cleanup. -/
def run_test (env : Env) (cfg : TestConfig) : RunState :=
  cleanup_finish env (run_primary env cfg initState)

/-- A concrete environment whose stabilize-phase pressure reading immediately
exceeds the default 15 PSI limit. -/
def envAbort : Env :=
  { extendOutcome := ActOutcome.ok, fillOutcome := ActOutcome.ok, fillPressure := 10
    stabilizeReadings := fun _ => some 20
    isolateOutcome := ActOutcome.ok, testStartPressure := 10
    testSafetyReadings := fun _ => some 5, testReadings := fun _ => some 5
    exhaustOutcome := ActOutcome.ok, retractOutcome := ActOutcome.ok }

/-! ## Properties -/

lemma getLastI_cons_cons {α} [Inhabited α] (a b : α) (t : List α) :
    (a :: b :: t).getLastI = (b :: t).getLastI := by
  simp [List.getLastI_eq_getLast?, List.getLast?_cons_cons]

lemma getLastI_mem_cons {α} [Inhabited α] (a : α) (t : List α) :
    (a :: t).getLastI ∈ a :: t := by
  induction t generalizing a with
  | nil => simp [List.getLastI]
  | cons b t2 ih => rw [getLastI_cons_cons]; exact List.mem_cons_of_mem a (ih b)

lemma chain'_head_rel {α} {R : α → α → Prop} (htrans : Transitive R) :
    ∀ {a : α} {t : List α}, List.Chain' R (a :: t) → ∀ p ∈ t, R a p := by
  intro a t
  induction t generalizing a with
  | nil => intro _ p hp; cases hp
  | cons b t2 ih =>
    intro h p hp
    have hab : R a b := (List.chain'_cons.mp h).1
    have h2 : List.Chain' R (b :: t2) := (List.chain'_cons.mp h).2
    rcases List.mem_cons.mp hp with rfl | hp2
    · exact hab
    · exact htrans hab (ih h2 p hp2)

lemma chain'_rel_getLastI {α} [Inhabited α] {R : α → α → Prop} (htrans : Transitive R) :
    ∀ {s : List α}, List.Chain' R s → ∀ p ∈ s, p = s.getLastI ∨ R p s.getLastI := by
  intro s
  induction s with
  | nil => intro _ p hp; cases hp
  | cons a t ih =>
    intro h p hp
    cases t with
    | nil =>
      rcases List.mem_cons.mp hp with rfl | h2
      · left; simp [List.getLastI]
      · cases h2
    | cons b t2 =>
      have hab : R a b := (List.chain'_cons.mp h).1
      have h2 : List.Chain' R (b :: t2) := (List.chain'_cons.mp h).2
      rw [getLastI_cons_cons]
      rcases List.mem_cons.mp hp with rfl | hp2
      · right
        have hmem : (b :: t2).getLastI ∈ b :: t2 := getLastI_mem_cons b t2
        rcases List.mem_cons.mp hmem with he | hm
        · rw [he]; exact hab
        · exact htrans hab (chain'_head_rel htrans h2 _ hm)
      · exact ih h2 p hp2

lemma sortPoints_sorted (l : List CalibrationPoint) : (sortPoints l).Sorted calLE :=
  List.sorted_insertionSort calLE l

lemma sortPoints_perm (l : List CalibrationPoint) : List.Perm (sortPoints l) l :=
  List.perm_insertionSort calLE l

lemma sortPoints_length (l : List CalibrationPoint) : (sortPoints l).length = l.length :=
  (sortPoints_perm l).length_eq

lemma mem_sortPoints {l : List CalibrationPoint} {p : CalibrationPoint} :
    p ∈ sortPoints l ↔ p ∈ l := (sortPoints_perm l).mem_iff

lemma headI_min_of_sorted {s : List CalibrationPoint} (hs : s.Sorted calLE)
    {p : CalibrationPoint} (hp : p ∈ s) : s.headI.current_ma ≤ p.current_ma := by
  cases s with
  | nil => cases hp
  | cons a t =>
    rcases List.mem_cons.mp hp with rfl | hp2
    · simp
    · exact (List.pairwise_cons.mp hs).1 p hp2

lemma le_getLastI_of_sorted {s : List CalibrationPoint} (hs : s.Sorted calLE)
    {p : CalibrationPoint} (hp : p ∈ s) : p.current_ma ≤ s.getLastI.current_ma := by
  have htrans : Transitive calLE := fun a b c hab hbc => le_trans hab hbc
  rcases chain'_rel_getLastI htrans (List.chain'_iff_pairwise.mpr hs) p hp with he | hr
  · rw [he]
  · exact hr

lemma interpSegment_mono {p q : CalibrationPoint} (hx : p.current_ma < q.current_ma)
    (hy : p.pressure_psi ≤ q.pressure_psi) {c1 c2 : ℚ} (hc : c1 ≤ c2) :
    interpSegment p q c1 ≤ interpSegment p q c2 := by
  have hne : q.current_ma ≠ p.current_ma := ne_of_gt hx
  have hxpos : (0:ℚ) < q.current_ma - p.current_ma := sub_pos.mpr hx
  have hynn : (0:ℚ) ≤ q.pressure_psi - p.pressure_psi := sub_nonneg.mpr hy
  unfold interpSegment
  rw [if_neg hne, if_neg hne]
  apply add_le_add_left
  apply (div_le_div_iff_of_pos_right hxpos).mpr
  exact mul_le_mul_of_nonneg_left (sub_le_sub_right hc _) hynn

lemma interpSegment_left {p q : CalibrationPoint} (hx : p.current_ma < q.current_ma) :
    interpSegment p q p.current_ma = p.pressure_psi := by
  have hne : q.current_ma ≠ p.current_ma := ne_of_gt hx
  unfold interpSegment
  rw [if_neg hne]
  simp

lemma interpSegment_right {p q : CalibrationPoint} (hx : p.current_ma < q.current_ma) :
    interpSegment p q q.current_ma = q.pressure_psi := by
  have hne : q.current_ma ≠ p.current_ma := ne_of_gt hx
  have hxne : q.current_ma - p.current_ma ≠ 0 := sub_ne_zero.mpr hne
  unfold interpSegment
  rw [if_neg hne, mul_div_assoc, div_self hxne, mul_one]
  ring

lemma interpSegment_ge_left {p q : CalibrationPoint} (hx : p.current_ma < q.current_ma)
    (hy : p.pressure_psi ≤ q.pressure_psi) {c : ℚ} (hc : p.current_ma ≤ c) :
    p.pressure_psi ≤ interpSegment p q c := by
  have h := interpSegment_mono hx hy hc
  rwa [interpSegment_left hx] at h

lemma interpSegment_le_right {p q : CalibrationPoint} (hx : p.current_ma < q.current_ma)
    (hy : p.pressure_psi ≤ q.pressure_psi) {c : ℚ} (hc : c ≤ q.current_ma) :
    interpSegment p q c ≤ q.pressure_psi := by
  have h := interpSegment_mono hx hy hc
  rwa [interpSegment_right hx] at h

lemma prMono_head_le_getLastI {a : CalibrationPoint} {t : List CalibrationPoint}
    (h : PrMono (a :: t)) : a.pressure_psi ≤ (a :: t).getLastI.pressure_psi := by
  have htrans : Transitive (fun x y : CalibrationPoint => x.pressure_psi ≤ y.pressure_psi) :=
    fun x y z hxy hyz => le_trans hxy hyz
  rcases chain'_rel_getLastI htrans h a (List.mem_cons_self a t) with he | hr
  · rw [← he]
  · exact hr

lemma interpScan_bounds :
    ∀ (s : List CalibrationPoint), 2 ≤ s.length → CurStrict s → PrMono s →
    ∀ c : ℚ, s.headI.current_ma < c → c ≤ s.getLastI.current_ma →
    ∃ v, interpScan s c = some v ∧ s.headI.pressure_psi ≤ v ∧ v ≤ s.getLastI.pressure_psi := by
  intro s
  induction s with
  | nil => intro h2; simp at h2
  | cons p t ih =>
    intro h2 hcur hpr c hlo hhi
    cases t with
    | nil => simp at h2
    | cons q rest =>
      have hpq : p.current_ma < q.current_ma := (List.chain'_cons.mp hcur).1
      have hpqy : p.pressure_psi ≤ q.pressure_psi := (List.chain'_cons.mp hpr).1
      have hcur2 : CurStrict (q :: rest) := (List.chain'_cons.mp hcur).2
      have hpr2 : PrMono (q :: rest) := (List.chain'_cons.mp hpr).2
      rw [getLastI_cons_cons] at hhi
      by_cases hc : c ≤ q.current_ma
      · refine ⟨interpSegment p q c, ?_, ?_, ?_⟩
        · unfold interpScan
          rw [if_pos ⟨le_of_lt hlo, hc⟩]
        · exact interpSegment_ge_left hpq hpqy (le_of_lt hlo)
        · have hv : interpSegment p q c ≤ q.pressure_psi :=
            interpSegment_le_right hpq hpqy hc
          rw [getLastI_cons_cons]
          exact le_trans hv (prMono_head_le_getLastI hpr2)
      · push_neg at hc
        cases rest with
        | nil =>
          exfalso
          simp [List.getLastI] at hhi
          exact absurd (lt_of_lt_of_le hc hhi) (lt_irrefl _)
        | cons r rest2 =>
          obtain ⟨v, hv, hvlo, hvhi⟩ :=
            ih (by simp) hcur2 hpr2 c (by simpa using hc) (by simpa using hhi)
          refine ⟨v, ?_, ?_, ?_⟩
          · unfold interpScan
            rw [if_neg]
            · exact hv
            · intro hand
              exact absurd hand.2 (not_le.mpr hc)
          · simp only [List.headI_cons]
            simp only [List.headI_cons] at hvlo
            exact le_trans hpqy hvlo
          · rw [getLastI_cons_cons]
            exact hvhi

lemma interpScan_mono :
    ∀ (s : List CalibrationPoint), 2 ≤ s.length → CurStrict s → PrMono s →
    ∀ c1 c2 : ℚ, s.headI.current_ma < c1 → c1 ≤ c2 → c2 ≤ s.getLastI.current_ma →
    ∀ v1 v2, interpScan s c1 = some v1 → interpScan s c2 = some v2 → v1 ≤ v2 := by
  intro s
  induction s with
  | nil => intro h2; simp at h2
  | cons p t ih =>
    intro h2 hcur hpr c1 c2 hlo hc hhi v1 v2 hv1 hv2
    cases t with
    | nil => simp at h2
    | cons q rest =>
      have hpq : p.current_ma < q.current_ma := (List.chain'_cons.mp hcur).1
      have hpqy : p.pressure_psi ≤ q.pressure_psi := (List.chain'_cons.mp hpr).1
      have hcur2 : CurStrict (q :: rest) := (List.chain'_cons.mp hcur).2
      have hpr2 : PrMono (q :: rest) := (List.chain'_cons.mp hpr).2
      rw [getLastI_cons_cons] at hhi
      simp only [List.headI_cons] at hlo
      have hlo2 : p.current_ma < c2 := lt_of_lt_of_le hlo hc
      by_cases hc2 : c2 ≤ q.current_ma
      · -- both inputs fall in the first segment
        have hc1 : c1 ≤ q.current_ma := le_trans hc hc2
        unfold interpScan at hv1 hv2
        rw [if_pos ⟨le_of_lt hlo, hc1⟩] at hv1
        rw [if_pos ⟨le_of_lt hlo2, hc2⟩] at hv2
        obtain rfl : interpSegment p q c1 = v1 := Option.some.inj hv1
        obtain rfl : interpSegment p q c2 = v2 := Option.some.inj hv2
        exact interpSegment_mono hpq hpqy hc
      · push_neg at hc2
        have hrest : rest ≠ [] := by
          intro hre
          subst hre
          simp [List.getLastI] at hhi
          exact absurd (lt_of_lt_of_le hc2 hhi) (lt_irrefl _)
        have hv2r : interpScan (q :: rest) c2 = some v2 := by
          unfold interpScan at hv2
          rwa [if_neg (fun hand => absurd hand.2 (not_le.mpr hc2))] at hv2
        by_cases hc1 : c1 ≤ q.current_ma
        · -- c1 in the first segment, c2 strictly beyond it
          unfold interpScan at hv1
          rw [if_pos ⟨le_of_lt hlo, hc1⟩] at hv1
          obtain rfl : interpSegment p q c1 = v1 := Option.some.inj hv1
          have hb1 : interpSegment p q c1 ≤ q.pressure_psi :=
            interpSegment_le_right hpq hpqy hc1
          obtain ⟨w, hw, hwlo, hwhi⟩ :=
            interpScan_bounds (q :: rest)
              (by cases rest with | nil => exact absurd rfl hrest | cons r rest2 => simp)
              hcur2 hpr2 c2 (by simpa using hc2) hhi
          rw [hw] at hv2r
          obtain rfl : w = v2 := Option.some.inj hv2r
          exact le_trans hb1 (by simpa using hwlo)
        · push_neg at hc1
          have hv1r : interpScan (q :: rest) c1 = some v1 := by
            unfold interpScan at hv1
            rwa [if_neg (fun hand => absurd hand.2 (not_le.mpr hc1))] at hv1
          exact ih (by cases rest with
              | nil => exact absurd rfl hrest
              | cons r rest2 => simp)
            hcur2 hpr2 c1 c2 (by simpa using hc1) hc hhi v1 v2 hv1r hv2r

lemma multipoint_of_le_headI {cal : PressureCalibration} {c : ℚ}
    (h2 : 2 ≤ cal.calibration_points.length)
    (hc : c ≤ (sortPoints cal.calibration_points).headI.current_ma) :
    current_to_pressure_multipoint cal c =
      (sortPoints cal.calibration_points).headI.pressure_psi := by
  unfold current_to_pressure_multipoint
  rw [if_neg (not_lt.mpr h2), if_pos hc]

lemma multipoint_of_ge_getLastI {cal : PressureCalibration} {c : ℚ}
    (h2 : 2 ≤ cal.calibration_points.length)
    (hc1 : ¬ c ≤ (sortPoints cal.calibration_points).headI.current_ma)
    (hc2 : (sortPoints cal.calibration_points).getLastI.current_ma ≤ c) :
    current_to_pressure_multipoint cal c =
      (sortPoints cal.calibration_points).getLastI.pressure_psi := by
  unfold current_to_pressure_multipoint
  rw [if_neg (not_lt.mpr h2), if_neg hc1, if_pos hc2]

lemma multipoint_interior {cal : PressureCalibration} {c : ℚ}
    (h2 : 2 ≤ cal.calibration_points.length)
    (hc1 : ¬ c ≤ (sortPoints cal.calibration_points).headI.current_ma)
    (hc2 : ¬ (sortPoints cal.calibration_points).getLastI.current_ma ≤ c) :
    current_to_pressure_multipoint cal c =
      (interpScan (sortPoints cal.calibration_points) c).getD
        (current_to_pressure_linear cal c) := by
  unfold current_to_pressure_multipoint
  rw [if_neg (not_lt.mpr h2), if_neg hc1, if_neg hc2]

/-- C6 core: the multipoint conversion is monotone non-decreasing for a point
set whose sorted currents strictly increase and sorted pressures are
non-decreasing. -/
theorem multipoint_mono_aux (cal : PressureCalibration) (c1 c2 : ℚ)
    (h2 : 2 ≤ cal.calibration_points.length)
    (hcur : CurStrict (sortPoints cal.calibration_points))
    (hpr : PrMono (sortPoints cal.calibration_points))
    (hc : c1 ≤ c2) :
    current_to_pressure_multipoint cal c1 ≤ current_to_pressure_multipoint cal c2 := by
  have hslen : 2 ≤ (sortPoints cal.calibration_points).length := by
    rw [sortPoints_length]; exact h2
  have hhl : (sortPoints cal.calibration_points).headI.pressure_psi ≤
      (sortPoints cal.calibration_points).getLastI.pressure_psi := by
    cases hS : sortPoints cal.calibration_points with
    | nil => rw [hS] at hslen; simp at hslen
    | cons a t =>
      have := prMono_head_le_getLastI (hS ▸ hpr)
      simpa [hS] using this
  by_cases h1a : c1 ≤ (sortPoints cal.calibration_points).headI.current_ma
  · rw [multipoint_of_le_headI h2 h1a]
    by_cases h2a : c2 ≤ (sortPoints cal.calibration_points).headI.current_ma
    · rw [multipoint_of_le_headI h2 h2a]
    · by_cases h2b : (sortPoints cal.calibration_points).getLastI.current_ma ≤ c2
      · rw [multipoint_of_ge_getLastI h2 h2a h2b]
        exact hhl
      · rw [multipoint_interior h2 h2a h2b]
        obtain ⟨v, hv, hvlo, _⟩ :=
          interpScan_bounds (sortPoints cal.calibration_points) hslen hcur hpr c2
            (not_le.mp h2a) (le_of_lt (not_le.mp h2b))
        rw [hv]
        exact hvlo
  · have h2a : ¬ c2 ≤ (sortPoints cal.calibration_points).headI.current_ma :=
      not_le.mpr (lt_of_lt_of_le (not_le.mp h1a) hc)
    by_cases h1b : (sortPoints cal.calibration_points).getLastI.current_ma ≤ c1
    · have h2b := le_trans h1b hc
      rw [multipoint_of_ge_getLastI h2 h1a h1b, multipoint_of_ge_getLastI h2 h2a h2b]
    · rw [multipoint_interior h2 h1a h1b]
      obtain ⟨v1, hv1, _, hv1hi⟩ :=
        interpScan_bounds (sortPoints cal.calibration_points) hslen hcur hpr c1
          (not_le.mp h1a) (le_of_lt (not_le.mp h1b))
      rw [hv1]
      by_cases h2b : (sortPoints cal.calibration_points).getLastI.current_ma ≤ c2
      · rw [multipoint_of_ge_getLastI h2 h2a h2b]
        exact hv1hi
      · rw [multipoint_interior h2 h2a h2b]
        obtain ⟨v2, hv2, _, _⟩ :=
          interpScan_bounds (sortPoints cal.calibration_points) hslen hcur hpr c2
            (not_le.mp h2a) (le_of_lt (not_le.mp h2b))
        rw [hv2]
        exact interpScan_mono (sortPoints cal.calibration_points) hslen hcur hpr c1 c2
          (not_le.mp h1a) hc (le_of_lt (not_le.mp h2b)) v1 v2 hv1 hv2

/-- C8: with the calibration point set consisting exactly of (4.0 mA, 0.0 PSI)
and (20.0 mA, 100.0 PSI), the conversion at 12.0 mA returns exactly 50.0 PSI. -/
theorem C8_two_point_exactness :
    cal8.calibration_points = [⟨4, 0⟩, ⟨20, 100⟩] ∧
    current_to_pressure_multipoint cal8 12 = 50 := by
  constructor
  · rfl
  · norm_num [current_to_pressure_multipoint, cal8, sortPoints, List.insertionSort,
      List.orderedInsert, calLE, interpScan, interpSegment, current_to_pressure_linear,
      List.headI, List.getLastI]

/-- C5 counterexample: with points (5 mA, 1 PSI) and (5 mA, 2 PSI) — coincident
currents — the input 5 mA is at or above the highest point's current, yet the
conversion returns 1, not the highest (sorted-last) point's pressure 2. -/
theorem C5_counterexample :
    2 ≤ calCoincident.calibration_points.length ∧
    (sortPoints calCoincident.calibration_points).getLastI.current_ma ≤ 5 ∧
    (sortPoints calCoincident.calibration_points).getLastI.pressure_psi = 2 ∧
    current_to_pressure_multipoint calCoincident 5 = 1 ∧
    current_to_pressure_multipoint calCoincident 5 ≠
      (sortPoints calCoincident.calibration_points).getLastI.pressure_psi := by
  norm_num [current_to_pressure_multipoint, calCoincident, sortPoints, List.insertionSort,
    List.orderedInsert, calLE, interpScan, interpSegment, current_to_pressure_linear,
    List.headI, List.getLastI]

/-- C5 (amended): for every point set with at least 2 points, the sorted-first
point has the lowest current and the sorted-last the highest; any input at or
below the lowest current returns the sorted-first point's pressure; any input
at or above the highest current returns the sorted-last point's pressure
except when the input also lies at or below the lowest sorted current (only
possible when the extreme currents coincide), where the sorted-first point's
pressure is returned instead. -/
theorem C5_calibration_clamping (cal : PressureCalibration)
    (h2 : 2 ≤ cal.calibration_points.length) :
    (∀ p ∈ cal.calibration_points,
        (sortPoints cal.calibration_points).headI.current_ma ≤ p.current_ma) ∧
    (∀ p ∈ cal.calibration_points,
        p.current_ma ≤ (sortPoints cal.calibration_points).getLastI.current_ma) ∧
    (∀ c : ℚ, c ≤ (sortPoints cal.calibration_points).headI.current_ma →
        current_to_pressure_multipoint cal c =
          (sortPoints cal.calibration_points).headI.pressure_psi) ∧
    (∀ c : ℚ, (sortPoints cal.calibration_points).getLastI.current_ma ≤ c →
        ¬ c ≤ (sortPoints cal.calibration_points).headI.current_ma →
        current_to_pressure_multipoint cal c =
          (sortPoints cal.calibration_points).getLastI.pressure_psi) := by
  refine ⟨?_, ?_, ?_, ?_⟩
  · intro p hp
    exact headI_min_of_sorted (sortPoints_sorted _) (mem_sortPoints.mpr hp)
  · intro p hp
    exact le_getLastI_of_sorted (sortPoints_sorted _) (mem_sortPoints.mpr hp)
  · intro c hcl
    exact multipoint_of_le_headI h2 hcl
  · intro c hch hcl
    exact multipoint_of_ge_getLastI h2 hcl hch

/-- Witness for the amended C5 clamping at the concrete two-point set. -/
theorem C5_calibration_clamping_witness :
    current_to_pressure_multipoint cal8 2 = 0 ∧
    current_to_pressure_multipoint cal8 25 = 100 := by
  have hs : sortPoints cal8.calibration_points = [⟨4, 0⟩, ⟨20, 100⟩] := by
    norm_num [sortPoints, cal8, List.insertionSort, List.orderedInsert, calLE]
  have h := C5_calibration_clamping cal8 (by norm_num [cal8])
  constructor
  · have h3 := h.2.2.1 2 (by rw [hs]; norm_num)
    rw [hs] at h3
    simpa using h3
  · have h4 := h.2.2.2 25 (by rw [hs]; norm_num [List.getLastI]) (by rw [hs]; norm_num)
    rw [hs] at h4
    simpa [List.getLastI] using h4

/-- C6: for every point set with at least 2 points whose currents strictly
increase after sorting and whose pressures are non-decreasing in that order,
the conversion is monotone non-decreasing in the input current. -/
theorem C6_calibration_monotonicity (cal : PressureCalibration) (c1 c2 : ℚ)
    (h2 : 2 ≤ cal.calibration_points.length)
    (hcur : CurStrict (sortPoints cal.calibration_points))
    (hpr : PrMono (sortPoints cal.calibration_points))
    (hc : c1 ≤ c2) :
    current_to_pressure_multipoint cal c1 ≤ current_to_pressure_multipoint cal c2 :=
  multipoint_mono_aux cal c1 c2 h2 hcur hpr hc

/-- Witness for C6 monotonicity at the concrete two-point set. -/
theorem C6_calibration_monotonicity_witness :
    current_to_pressure_multipoint cal8 6 ≤ current_to_pressure_multipoint cal8 13 := by
  have hs : sortPoints cal8.calibration_points = [⟨4, 0⟩, ⟨20, 100⟩] := by
    norm_num [sortPoints, cal8, List.insertionSort, List.orderedInsert, calLE]
  exact C6_calibration_monotonicity cal8 6 13 (by norm_num [cal8])
    (by rw [hs]; norm_num [CurStrict, List.chain'_cons])
    (by rw [hs]; norm_num [PrMono, List.chain'_cons])
    (by norm_num)

/-- C7 counterexample: with no calibration points the conversion is not the
constant minimum pressure — at 12 mA it returns 50 PSI, not 0 PSI. -/
theorem C7_counterexample :
    cal0.calibration_points.length < 2 ∧
    cal0.min_pressure_psi = 0 ∧
    current_to_pressure_multipoint cal0 12 = 50 ∧
    current_to_pressure_multipoint cal0 12 ≠ cal0.min_pressure_psi := by
  norm_num [current_to_pressure_multipoint, cal0, current_to_pressure_linear]

/-- C7 (amended): with fewer than 2 calibration points the conversion falls
back to the configured two-bound linear map, so it is not in general the
constant minimum pressure; in the degenerate case where the configured
current range is zero it does return the configured minimum pressure for
every input. -/
theorem C7_linear_fallback (cal : PressureCalibration) (c : ℚ)
    (h : cal.calibration_points.length < 2) :
    current_to_pressure_multipoint cal c = current_to_pressure_linear cal c ∧
    (cal.max_current_ma = cal.min_current_ma →
      current_to_pressure_multipoint cal c = cal.min_pressure_psi) := by
  constructor
  · unfold current_to_pressure_multipoint
    rw [if_pos h]
  · intro hdeg
    unfold current_to_pressure_multipoint current_to_pressure_linear
    rw [if_pos h]
    simp [sub_eq_zero.mpr hdeg]

/-- Witness for the amended C7 at concrete configurations. -/
theorem C7_linear_fallback_witness :
    current_to_pressure_multipoint cal0 12 = current_to_pressure_linear cal0 12 ∧
    current_to_pressure_multipoint calDegenerate 7 = calDegenerate.min_pressure_psi :=
  ⟨(C7_linear_fallback cal0 12 (by norm_num [cal0])).1,
   (C7_linear_fallback calDegenerate 7 (by norm_num [calDegenerate])).2 (by rfl)⟩

/-- C9: the leak-rate conversion equals volume·|slope|·60/14.69 for
non-negative volume, is always non-negative, and at slope −0.1 PSI/s with
volume 100 cc is within 0.01 of 40.84 sccm. -/
theorem C9_leak_rate_conversion (slope volume : ℚ) (hv : 0 ≤ volume) :
    (calculate_leak_rate volume slope = volume * |slope| * 60 / (1469 / 100) ∧
      0 ≤ calculate_leak_rate volume slope) ∧
    |calculate_leak_rate 100 (-1/10) - 4084/100| < 1/100 := by
  refine ⟨⟨?_, abs_nonneg _⟩, by norm_num [calculate_leak_rate, abs]⟩
  unfold calculate_leak_rate
  rw [abs_div, abs_mul, abs_mul, abs_of_nonneg hv,
    abs_of_nonneg (by norm_num : (0:ℚ) ≤ 1469 / 100),
    abs_of_nonneg (by norm_num : (0:ℚ) ≤ 60)]

/-- Witness for C9 at the spec's own concrete example. -/
theorem C9_leak_rate_conversion_witness :
    calculate_leak_rate 100 (-1/10) = 100 * |(-1/10 : ℚ)| * 60 / (1469 / 100) ∧
    0 ≤ calculate_leak_rate 100 (-1/10) :=
  (C9_leak_rate_conversion (-1/10) 100 (by norm_num)).1

lemma endpoint_leak_rate_eq {readings : List (ℚ × ℚ)} (hd : 0 ≤ readings.getLastI.1) :
    endpoint_leak_rate readings =
      (readings.headI.2 - readings.getLastI.2) / readings.getLastI.1 := by
  unfold endpoint_leak_rate
  rcases lt_or_eq_of_le hd with hpos | hzero
  · rw [if_pos hpos]
  · rw [if_neg (by rw [← hzero]; exact lt_irrefl 0), ← hzero, div_zero]

/-- C1: with ≥2 readings recorded at non-negative elapsed times, evaluation
yields `PASS` exactly when the endpoint leak rate (first pressure minus last
pressure, over the last elapsed time) is at most `max_leak_rate`, and `FAIL`
exactly otherwise; with fewer than 2 readings it yields `ERROR`. -/
theorem C1_evaluate_pass_iff (cfg : TestConfig) (readings : List (ℚ × ℚ)) :
    (2 ≤ readings.length → 0 ≤ readings.getLastI.1 →
      (((evaluate_readings cfg readings).result = TestResult.PASS ↔
          (readings.headI.2 - readings.getLastI.2) / readings.getLastI.1 ≤
            cfg.max_leak_rate) ∧
       ((evaluate_readings cfg readings).result = TestResult.FAIL ↔
          ¬ (readings.headI.2 - readings.getLastI.2) / readings.getLastI.1 ≤
            cfg.max_leak_rate))) ∧
    (readings.length < 2 → (evaluate_readings cfg readings).result = TestResult.ERROR) := by
  constructor
  · intro h2 hd
    unfold evaluate_readings
    rw [if_neg (not_lt.mpr h2), ← endpoint_leak_rate_eq hd]
    by_cases hle : endpoint_leak_rate readings ≤ cfg.max_leak_rate
    · rw [if_pos hle]
      constructor
      · simp [hle]
      · simp [hle]
    · rw [if_neg hle]
      constructor
      · simp [hle]
      · simp [hle]
  · intro h2
    unfold evaluate_readings
    rw [if_pos h2]

/-- Witness for C1 at concrete reading lists. -/
theorem C1_evaluate_pass_iff_witness :
    (((evaluate_readings defaultConfig [(0, 10), (10, 9)]).result = TestResult.PASS ↔
        ((10:ℚ) - 9) / 10 ≤ defaultConfig.max_leak_rate) ∧
     ((evaluate_readings defaultConfig [(0, 10), (10, 9)]).result = TestResult.FAIL ↔
        ¬ ((10:ℚ) - 9) / 10 ≤ defaultConfig.max_leak_rate)) ∧
    (evaluate_readings defaultConfig [(0, 10)]).result = TestResult.ERROR := by
  constructor
  · have h := (C1_evaluate_pass_iff defaultConfig [(0, 10), (10, 9)]).1 (by norm_num)
      (by norm_num [List.getLastI])
    simpa [List.getLastI, List.headI] using h
  · exact (C1_evaluate_pass_iff defaultConfig [(0, 10)]).2 (by norm_num)

/-- C10: with ≥2 readings whose last elapsed time is not strictly positive,
the computed leak rate is 0 (no division-by-zero exception), so the result is
`PASS` for any positive `max_leak_rate` and the phase reports success. -/
theorem C10_zero_duration_pass (cfg : TestConfig) (readings : List (ℚ × ℚ))
    (h2 : 2 ≤ readings.length) (hd : readings.getLastI.1 ≤ 0)
    (hm : 0 < cfg.max_leak_rate) :
    (evaluate_readings cfg readings).result = TestResult.PASS ∧
    (evaluate_readings cfg readings).leak_rate = some 0 ∧
    (evaluate_readings cfg readings).ok = true := by
  have hlr : endpoint_leak_rate readings = 0 := by
    unfold endpoint_leak_rate
    rw [if_neg (not_lt.mpr hd)]
  unfold evaluate_readings
  rw [if_neg (not_lt.mpr h2), hlr, if_pos (le_of_lt hm)]
  exact ⟨rfl, by rw [← hlr], rfl⟩

/-- Witness for C10: two readings both at elapsed time 0. -/
theorem C10_zero_duration_pass_witness :
    (evaluate_readings defaultConfig [(0, 5), (0, 3)]).result = TestResult.PASS ∧
    (evaluate_readings defaultConfig [(0, 5), (0, 3)]).leak_rate = some 0 ∧
    (evaluate_readings defaultConfig [(0, 5), (0, 3)]).ok = true :=
  C10_zero_duration_pass defaultConfig [(0, 5), (0, 3)] (by norm_num)
    (by norm_num [List.getLastI]) (by norm_num [defaultConfig])

@[simp] lemma setResult_result (s : RunState) (r : TestResult) :
    (setResult s r).result = r := rfl

@[simp] lemma setResult_resultHistory (s : RunState) (r : TestResult) :
    (setResult s r).resultHistory = s.resultHistory ++ [r] := rfl

@[simp] lemma setResult_currentPhase (s : RunState) (r : TestResult) :
    (setResult s r).currentPhase = s.currentPhase := rfl

@[simp] lemma setResult_phaseTrace (s : RunState) (r : TestResult) :
    (setResult s r).phaseTrace = s.phaseTrace := rfl

@[simp] lemma setResult_pressureReadings (s : RunState) (r : TestResult) :
    (setResult s r).pressureReadings = s.pressureReadings := rfl

@[simp] lemma setResult_stabilizeChecks (s : RunState) (r : TestResult) :
    (setResult s r).stabilizeChecks = s.stabilizeChecks := rfl

@[simp] lemma setResult_testChecks (s : RunState) (r : TestResult) :
    (setResult s r).testChecks = s.testChecks := rfl

@[simp] lemma setPhase_result (s : RunState) (p : TestPhase) :
    (setPhase s p).result = s.result := by
  unfold setPhase; split <;> rfl

@[simp] lemma setPhase_resultHistory (s : RunState) (p : TestPhase) :
    (setPhase s p).resultHistory = s.resultHistory := by
  unfold setPhase; split <;> rfl

@[simp] lemma setPhase_currentPhase (s : RunState) (p : TestPhase) :
    (setPhase s p).currentPhase = p := by
  unfold setPhase
  split
  · rename_i h; exact h.symm ▸ rfl
  · rfl

@[simp] lemma setPhase_pressureReadings (s : RunState) (p : TestPhase) :
    (setPhase s p).pressureReadings = s.pressureReadings := by
  unfold setPhase; split <;> rfl

@[simp] lemma setPhase_stabilizeChecks (s : RunState) (p : TestPhase) :
    (setPhase s p).stabilizeChecks = s.stabilizeChecks := by
  unfold setPhase; split <;> rfl

@[simp] lemma setPhase_testChecks (s : RunState) (p : TestPhase) :
    (setPhase s p).testChecks = s.testChecks := by
  unfold setPhase; split <;> rfl

lemma setPhase_phaseTrace_of_ne {s : RunState} {p : TestPhase}
    (h : s.currentPhase ≠ p) : (setPhase s p).phaseTrace = s.phaseTrace ++ [p] := by
  unfold setPhase; rw [if_neg h]

lemma stabilize_loop_frame (cfg : TestConfig) (r : ℕ → Option ℚ) :
    ∀ (n i : ℕ) (s : RunState),
    (stabilize_loop cfg r i n s).1.currentPhase = s.currentPhase ∧
    (stabilize_loop cfg r i n s).1.phaseTrace = s.phaseTrace ∧
    (stabilize_loop cfg r i n s).1.pressureReadings = s.pressureReadings ∧
    (stabilize_loop cfg r i n s).1.testChecks = s.testChecks ∧
    (((stabilize_loop cfg r i n s).2 = true ∧
        (stabilize_loop cfg r i n s).1.result = s.result ∧
        (stabilize_loop cfg r i n s).1.resultHistory = s.resultHistory) ∨
      ((stabilize_loop cfg r i n s).2 = false ∧
        (stabilize_loop cfg r i n s).1.result = TestResult.ERROR ∧
        (stabilize_loop cfg r i n s).1.resultHistory =
          s.resultHistory ++ [TestResult.ERROR])) := by
  intro n
  induction n with
  | zero =>
    intro i s
    simp [stabilize_loop]
  | succ m ih =>
    intro i s
    by_cases h : check_safety_limits cfg (r i) = true
    · have hstep : stabilize_loop cfg r i (m+1) s =
          stabilize_loop cfg r (i+1) m { s with stabilizeChecks := s.stabilizeChecks + 1 } := by
        simp [stabilize_loop, h]
      rw [hstep]
      obtain ⟨h1, h2, h3, h4, h5⟩ := ih (i+1) { s with stabilizeChecks := s.stabilizeChecks + 1 }
      exact ⟨h1, h2, h3, h4, h5⟩
    · have hstep : stabilize_loop cfg r i (m+1) s =
          (setResult { s with stabilizeChecks := s.stabilizeChecks + 1 } TestResult.ERROR,
            false) := by
        simp [stabilize_loop, h]
      rw [hstep]
      simp

lemma test_loop_frame (cfg : TestConfig) (sr pr : ℕ → Option ℚ) :
    ∀ (n i : ℕ) (acc : List (ℚ × ℚ)) (s : RunState),
    (test_loop cfg sr pr i n acc s).1.currentPhase = s.currentPhase ∧
    (test_loop cfg sr pr i n acc s).1.phaseTrace = s.phaseTrace ∧
    (test_loop cfg sr pr i n acc s).1.stabilizeChecks = s.stabilizeChecks ∧
    (((test_loop cfg sr pr i n acc s).2 = true ∧
        (test_loop cfg sr pr i n acc s).1.result = s.result ∧
        (test_loop cfg sr pr i n acc s).1.resultHistory = s.resultHistory) ∨
      ((test_loop cfg sr pr i n acc s).2 = false ∧
        (test_loop cfg sr pr i n acc s).1.result = TestResult.ERROR ∧
        (test_loop cfg sr pr i n acc s).1.resultHistory =
          s.resultHistory ++ [TestResult.ERROR])) := by
  intro n
  induction n with
  | zero =>
    intro i acc s
    simp [test_loop]
  | succ m ih =>
    intro i acc s
    by_cases h : check_safety_limits cfg (sr i) = true
    · cases hp : pr i with
      | none =>
        have hstep : test_loop cfg sr pr i (m+1) acc s =
            (setResult { s with testChecks := s.testChecks + 1 } TestResult.ERROR, false) := by
          simp [test_loop, h, hp]
        rw [hstep]
        simp
      | some p =>
        have hstep : test_loop cfg sr pr i (m+1) acc s =
            test_loop cfg sr pr (i+1) m (acc ++ [((i : ℚ), p)])
              { s with testChecks := s.testChecks + 1 } := by
          simp [test_loop, h, hp]
        rw [hstep]
        obtain ⟨h1, h2, h3, h4⟩ :=
          ih (i+1) (acc ++ [((i : ℚ), p)]) { s with testChecks := s.testChecks + 1 }
        exact ⟨h1, h2, h3, h4⟩
    · have hstep : test_loop cfg sr pr i (m+1) acc s =
          (setResult { s with testChecks := s.testChecks + 1 } TestResult.ERROR, false) := by
        simp [test_loop, h]
      rw [hstep]
      simp

lemma stabilize_loop_abort (cfg : TestConfig) (r : ℕ → Option ℚ) :
    ∀ (k i n : ℕ) (s : RunState),
    (∀ j, j < k → check_safety_limits cfg (r (i + j)) = true) →
    check_safety_limits cfg (r (i + k)) = false →
    k < n →
    stabilize_loop cfg r i n s =
      (setResult { s with stabilizeChecks := s.stabilizeChecks + k + 1 }
        TestResult.ERROR, false) := by
  intro k
  induction k with
  | zero =>
    intro i n s _ hfail hn
    cases n with
    | zero => omega
    | succ m =>
      have h0 : check_safety_limits cfg (r i) = false := by simpa using hfail
      simp [stabilize_loop, h0]
  | succ k ih =>
    intro i n s hsafe hfail hn
    cases n with
    | zero => omega
    | succ m =>
      have h0 : check_safety_limits cfg (r i) = true := by
        have := hsafe 0 (by omega)
        simpa using this
      have hstep : stabilize_loop cfg r i (m+1) s =
          stabilize_loop cfg r (i+1) m { s with stabilizeChecks := s.stabilizeChecks + 1 } := by
        simp [stabilize_loop, h0]
      rw [hstep]
      have hsafe2 : ∀ j, j < k → check_safety_limits cfg (r (i + 1 + j)) = true := by
        intro j hj
        have := hsafe (j+1) (by omega)
        rwa [show i + (j + 1) = i + 1 + j by omega] at this
      have hfail2 : check_safety_limits cfg (r (i + 1 + k)) = false := by
        rwa [show i + (k + 1) = i + 1 + k by omega] at hfail
      rw [ih (i+1) m { s with stabilizeChecks := s.stabilizeChecks + 1 } hsafe2 hfail2
        (by omega)]
      have : s.stabilizeChecks + 1 + k + 1 = s.stabilizeChecks + (k + 1) + 1 := by omega
      simp [this]

lemma test_loop_abort (cfg : TestConfig) (sr pr : ℕ → Option ℚ) :
    ∀ (k i n : ℕ) (acc : List (ℚ × ℚ)) (s : RunState),
    (∀ j, j < k → check_safety_limits cfg (sr (i + j)) = true) →
    (∀ j, j < k → pr (i + j) ≠ none) →
    check_safety_limits cfg (sr (i + k)) = false →
    k < n →
    (test_loop cfg sr pr i n acc s).2 = false ∧
    (test_loop cfg sr pr i n acc s).1.result = TestResult.ERROR ∧
    (test_loop cfg sr pr i n acc s).1.resultHistory =
      s.resultHistory ++ [TestResult.ERROR] ∧
    (test_loop cfg sr pr i n acc s).1.testChecks = s.testChecks + k + 1 ∧
    (test_loop cfg sr pr i n acc s).1.currentPhase = s.currentPhase ∧
    (test_loop cfg sr pr i n acc s).1.phaseTrace = s.phaseTrace ∧
    (test_loop cfg sr pr i n acc s).1.stabilizeChecks = s.stabilizeChecks := by
  intro k
  induction k with
  | zero =>
    intro i n acc s _ _ hfail hn
    cases n with
    | zero => omega
    | succ m =>
      have h0 : check_safety_limits cfg (sr i) = false := by simpa using hfail
      have hstep : test_loop cfg sr pr i (m+1) acc s =
          (setResult { s with testChecks := s.testChecks + 1 } TestResult.ERROR, false) := by
        simp [test_loop, h0]
      rw [hstep]
      simp
  | succ k ih =>
    intro i n acc s hsafe hsample hfail hn
    cases n with
    | zero => omega
    | succ m =>
      have h0 : check_safety_limits cfg (sr i) = true := by
        have := hsafe 0 (by omega)
        simpa using this
      obtain ⟨p, hp⟩ : ∃ p, pr i = some p := by
        have := hsample 0 (by omega)
        simp only [Nat.add_zero] at this
        cases hpi : pr i with
        | none => exact absurd hpi this
        | some p => exact ⟨p, rfl⟩
      have hstep : test_loop cfg sr pr i (m+1) acc s =
          test_loop cfg sr pr (i+1) m (acc ++ [((i : ℚ), p)])
            { s with testChecks := s.testChecks + 1 } := by
        simp [test_loop, h0, hp]
      rw [hstep]
      have hsafe2 : ∀ j, j < k → check_safety_limits cfg (sr (i + 1 + j)) = true := by
        intro j hj
        have := hsafe (j+1) (by omega)
        rwa [show i + (j + 1) = i + 1 + j by omega] at this
      have hsample2 : ∀ j, j < k → pr (i + 1 + j) ≠ none := by
        intro j hj
        have := hsample (j+1) (by omega)
        rwa [show i + (j + 1) = i + 1 + j by omega] at this
      have hfail2 : check_safety_limits cfg (sr (i + 1 + k)) = false := by
        rwa [show i + (k + 1) = i + 1 + k by omega] at hfail
      obtain ⟨g1, g2, g3, g4, g5, g6, g7⟩ :=
        ih (i+1) m (acc ++ [((i : ℚ), p)]) { s with testChecks := s.testChecks + 1 }
          hsafe2 hsample2 hfail2 (by omega)
      refine ⟨g1, g2, by simpa using g3, ?_, by simpa using g5, by simpa using g6,
        by simpa using g7⟩
      rw [g4]
      simp
      omega

lemma stabilize_loop_success (cfg : TestConfig) (r : ℕ → Option ℚ)
    (h : ∀ j, check_safety_limits cfg (r j) = true) :
    ∀ (n i : ℕ) (s : RunState),
    stabilize_loop cfg r i n s =
      ({ s with stabilizeChecks := s.stabilizeChecks + n }, true) := by
  intro n
  induction n with
  | zero =>
    intro i s
    simp [stabilize_loop]
  | succ m ih =>
    intro i s
    have hstep : stabilize_loop cfg r i (m+1) s =
        stabilize_loop cfg r (i+1) m { s with stabilizeChecks := s.stabilizeChecks + 1 } := by
      simp [stabilize_loop, h i]
    rw [hstep, ih]
    have : s.stabilizeChecks + 1 + m = s.stabilizeChecks + (m + 1) := by omega
    simp [this]

lemma phase_extend_cases (env : Env) (s : RunState) :
    phase_extend_cylinders env s = (setPhase s TestPhase.EXTENDING_CYLINDERS, true) ∨
    phase_extend_cylinders env s =
      (setResult (setPhase s TestPhase.EXTENDING_CYLINDERS) TestResult.ERROR, false) := by
  cases h : env.extendOutcome <;> simp [phase_extend_cylinders, h]

lemma phase_fill_cases (env : Env) (s : RunState) :
    phase_fill_dut env s = (setPhase s TestPhase.FILLING_DUT, true) ∨
    phase_fill_dut env s =
      (setResult (setPhase s TestPhase.FILLING_DUT) TestResult.ERROR, false) := by
  cases h : env.fillOutcome <;> simp [phase_fill_dut, h]

lemma phase_isolate_cases (env : Env) (s : RunState) :
    phase_isolate env s = (setPhase s TestPhase.ISOLATING, true) ∨
    phase_isolate env s =
      (setResult (setPhase s TestPhase.ISOLATING) TestResult.ERROR, false) := by
  cases h : env.isolateOutcome <;> simp [phase_isolate, h]

lemma evaluate_readings_result_ne_none (cfg : TestConfig) (rs : List (ℚ × ℚ)) :
    (evaluate_readings cfg rs).result ≠ TestResult.NONE := by
  unfold evaluate_readings
  split
  · simp
  · split <;> simp

lemma phase_extend_spec (env : Env) (s : RunState) (h0r : s.result = TestResult.NONE)
    (h0h : s.resultHistory = [TestResult.NONE]) :
    (phase_extend_cylinders env s).1.currentPhase = TestPhase.EXTENDING_CYLINDERS ∧
    (((phase_extend_cylinders env s).2 = true ∧
        (phase_extend_cylinders env s).1.result = TestResult.NONE ∧
        (phase_extend_cylinders env s).1.resultHistory = [TestResult.NONE]) ∨
     ((phase_extend_cylinders env s).2 = false ∧
        (phase_extend_cylinders env s).1.result = TestResult.ERROR ∧
        (phase_extend_cylinders env s).1.resultHistory =
          [TestResult.NONE, TestResult.ERROR])) := by
  rcases phase_extend_cases env s with h | h <;> rw [h] <;> simp [h0r, h0h]

lemma phase_fill_spec (env : Env) (s : RunState) (h0r : s.result = TestResult.NONE)
    (h0h : s.resultHistory = [TestResult.NONE]) :
    (phase_fill_dut env s).1.currentPhase = TestPhase.FILLING_DUT ∧
    (((phase_fill_dut env s).2 = true ∧
        (phase_fill_dut env s).1.result = TestResult.NONE ∧
        (phase_fill_dut env s).1.resultHistory = [TestResult.NONE]) ∨
     ((phase_fill_dut env s).2 = false ∧
        (phase_fill_dut env s).1.result = TestResult.ERROR ∧
        (phase_fill_dut env s).1.resultHistory = [TestResult.NONE, TestResult.ERROR])) := by
  rcases phase_fill_cases env s with h | h <;> rw [h] <;> simp [h0r, h0h]

lemma phase_isolate_spec (env : Env) (s : RunState) (h0r : s.result = TestResult.NONE)
    (h0h : s.resultHistory = [TestResult.NONE]) :
    (phase_isolate env s).1.currentPhase = TestPhase.ISOLATING ∧
    (((phase_isolate env s).2 = true ∧
        (phase_isolate env s).1.result = TestResult.NONE ∧
        (phase_isolate env s).1.resultHistory = [TestResult.NONE]) ∨
     ((phase_isolate env s).2 = false ∧
        (phase_isolate env s).1.result = TestResult.ERROR ∧
        (phase_isolate env s).1.resultHistory = [TestResult.NONE, TestResult.ERROR])) := by
  rcases phase_isolate_cases env s with h | h <;> rw [h] <;> simp [h0r, h0h]

lemma phase_stabilize_spec (env : Env) (cfg : TestConfig) (s : RunState)
    (h0r : s.result = TestResult.NONE) (h0h : s.resultHistory = [TestResult.NONE]) :
    (phase_stabilize env cfg s).1.currentPhase = TestPhase.STABILIZING ∧
    (((phase_stabilize env cfg s).2 = true ∧
        (phase_stabilize env cfg s).1.result = TestResult.NONE ∧
        (phase_stabilize env cfg s).1.resultHistory = [TestResult.NONE]) ∨
     ((phase_stabilize env cfg s).2 = false ∧
        (phase_stabilize env cfg s).1.result = TestResult.ERROR ∧
        (phase_stabilize env cfg s).1.resultHistory =
          [TestResult.NONE, TestResult.ERROR])) := by
  unfold phase_stabilize
  obtain ⟨h1, _, _, _, h5⟩ := stabilize_loop_frame cfg env.stabilizeReadings
    (stabilizeIters cfg.stabilize_time) 0 (setPhase s TestPhase.STABILIZING)
  constructor
  · rw [h1]; simp
  · rcases h5 with ⟨hb, hres, hhist⟩ | ⟨hb, hres, hhist⟩
    · left
      refine ⟨hb, ?_, ?_⟩
      · rw [hres]; simp [h0r]
      · rw [hhist]; simp [h0h]
    · right
      refine ⟨hb, hres, ?_⟩
      rw [hhist]; simp [h0h]

lemma phase_test_spec (env : Env) (cfg : TestConfig) (s : RunState)
    (h0r : s.result = TestResult.NONE) (h0h : s.resultHistory = [TestResult.NONE]) :
    (phase_test env cfg s).1.currentPhase = TestPhase.TESTING ∧
    (((phase_test env cfg s).2 = true ∧
        (phase_test env cfg s).1.result = TestResult.NONE ∧
        (phase_test env cfg s).1.resultHistory = [TestResult.NONE]) ∨
     ((phase_test env cfg s).2 = false ∧
        (phase_test env cfg s).1.result = TestResult.ERROR ∧
        (phase_test env cfg s).1.resultHistory = [TestResult.NONE, TestResult.ERROR])) := by
  unfold phase_test
  obtain ⟨h1, _, _, h4⟩ := test_loop_frame cfg env.testSafetyReadings env.testReadings
    (testIters cfg.test_duration) 0 [(0, env.testStartPressure)]
    (setPhase s TestPhase.TESTING)
  constructor
  · rw [h1]; simp
  · rcases h4 with ⟨hb, hres, hhist⟩ | ⟨hb, hres, hhist⟩
    · left
      refine ⟨hb, ?_, ?_⟩
      · rw [hres]; simp [h0r]
      · rw [hhist]; simp [h0h]
    · right
      refine ⟨hb, hres, ?_⟩
      rw [hhist]; simp [h0h]

lemma phase_evaluate_spec (cfg : TestConfig) (s : RunState)
    (h0h : s.resultHistory = [TestResult.NONE]) :
    (phase_evaluate cfg s).1.currentPhase = TestPhase.EVALUATING ∧
    (phase_evaluate cfg s).1.result ≠ TestResult.NONE ∧
    (phase_evaluate cfg s).1.resultHistory =
      [TestResult.NONE, (phase_evaluate cfg s).1.result] := by
  unfold phase_evaluate
  refine ⟨by simp, by simpa using evaluate_readings_result_ne_none cfg s.pressureReadings, ?_⟩
  simp [h0h]

lemma stepThen_eq (r : RunState × Bool) (k : RunState → RunState) :
    stepThen r k = if r.2 then k r.1 else r.1 := by
  cases r with
  | mk s b => cases b <;> rfl

lemma run_primary_spec (env : Env) (cfg : TestConfig) :
    (run_primary env cfg initState).result ≠ TestResult.NONE ∧
    (run_primary env cfg initState).resultHistory =
      [TestResult.NONE, (run_primary env cfg initState).result] ∧
    (run_primary env cfg initState).currentPhase ≠ TestPhase.EXHAUSTING ∧
    (run_primary env cfg initState).currentPhase ≠ TestPhase.RETRACTING_CYLINDERS ∧
    (run_primary env cfg initState).currentPhase ≠ TestPhase.COMPLETE := by
  unfold run_primary
  have h0r : initState.result = TestResult.NONE := rfl
  have h0h : initState.resultHistory = [TestResult.NONE] := rfl
  obtain ⟨hcpE, hE⟩ := phase_extend_spec env initState h0r h0h
  rw [stepThen_eq]
  rcases hE with ⟨hb, hres, hhist⟩ | ⟨hb, hres, hhist⟩
  swap
  · rw [hb, if_neg (by simp)]
    refine ⟨by rw [hres]; simp, by rw [hhist, hres], ?_, ?_, ?_⟩ <;> rw [hcpE] <;> simp
  rw [hb, if_pos rfl]
  obtain ⟨hcpF, hF⟩ := phase_fill_spec env _ hres hhist
  rw [stepThen_eq]
  rcases hF with ⟨hb2, hres2, hhist2⟩ | ⟨hb2, hres2, hhist2⟩
  swap
  · rw [hb2, if_neg (by simp)]
    refine ⟨by rw [hres2]; simp, by rw [hhist2, hres2], ?_, ?_, ?_⟩ <;> rw [hcpF] <;> simp
  rw [hb2, if_pos rfl]
  obtain ⟨hcpS, hS⟩ := phase_stabilize_spec env cfg _ hres2 hhist2
  rw [stepThen_eq]
  rcases hS with ⟨hb3, hres3, hhist3⟩ | ⟨hb3, hres3, hhist3⟩
  swap
  · rw [hb3, if_neg (by simp)]
    refine ⟨by rw [hres3]; simp, by rw [hhist3, hres3], ?_, ?_, ?_⟩ <;> rw [hcpS] <;> simp
  rw [hb3, if_pos rfl]
  obtain ⟨hcpI, hI⟩ := phase_isolate_spec env _ hres3 hhist3
  rw [stepThen_eq]
  rcases hI with ⟨hb4, hres4, hhist4⟩ | ⟨hb4, hres4, hhist4⟩
  swap
  · rw [hb4, if_neg (by simp)]
    refine ⟨by rw [hres4]; simp, by rw [hhist4, hres4], ?_, ?_, ?_⟩ <;> rw [hcpI] <;> simp
  rw [hb4, if_pos rfl]
  obtain ⟨hcpT, hT⟩ := phase_test_spec env cfg _ hres4 hhist4
  rw [stepThen_eq]
  rcases hT with ⟨hb5, hres5, hhist5⟩ | ⟨hb5, hres5, hhist5⟩
  swap
  · rw [hb5, if_neg (by simp)]
    refine ⟨by rw [hres5]; simp, by rw [hhist5, hres5], ?_, ?_, ?_⟩ <;> rw [hcpT] <;> simp
  rw [hb5, if_pos rfl]
  obtain ⟨hcpV, hneV, hhistV⟩ := phase_evaluate_spec cfg _ hhist5
  refine ⟨hneV, hhistV, ?_, ?_, ?_⟩ <;> rw [hcpV] <;> simp

@[simp] lemma stepThen_true (s : RunState) (k : RunState → RunState) :
    stepThen (s, true) k = k s := rfl

@[simp] lemma stepThen_false (s : RunState) (k : RunState → RunState) :
    stepThen (s, false) k = s := rfl

lemma phase_exhaust_state (env : Env) (s : RunState) :
    (phase_exhaust env s).1 = setPhase s TestPhase.EXHAUSTING := rfl

lemma phase_retract_state (env : Env) (s : RunState) :
    (phase_retract_cylinders env s).1 = setPhase s TestPhase.RETRACTING_CYLINDERS := rfl

lemma cleanup_finish_result (env : Env) (s : RunState) :
    (cleanup_finish env s).result =
      if s.result = TestResult.NONE then TestResult.ERROR else s.result := by
  unfold cleanup_finish
  rw [phase_exhaust_state, phase_retract_state]
  split
  · rename_i h
    simp at h
    simp [h]
  · rename_i h
    simp at h
    simp [h]

lemma cleanup_finish_resultHistory (env : Env) (s : RunState) :
    (cleanup_finish env s).resultHistory =
      if s.result = TestResult.NONE then s.resultHistory ++ [TestResult.ERROR]
      else s.resultHistory := by
  unfold cleanup_finish
  rw [phase_exhaust_state, phase_retract_state]
  split
  · rename_i h
    simp at h
    simp [h]
  · rename_i h
    simp at h
    simp [h]

lemma cleanup_finish_stabilizeChecks (env : Env) (s : RunState) :
    (cleanup_finish env s).stabilizeChecks = s.stabilizeChecks := by
  unfold cleanup_finish
  rw [phase_exhaust_state, phase_retract_state]
  split <;> simp

lemma cleanup_finish_testChecks (env : Env) (s : RunState) :
    (cleanup_finish env s).testChecks = s.testChecks := by
  unfold cleanup_finish
  rw [phase_exhaust_state, phase_retract_state]
  split <;> simp

lemma cleanup_finish_currentPhase (env : Env) (s : RunState) :
    (cleanup_finish env s).currentPhase = TestPhase.COMPLETE := by
  unfold cleanup_finish
  rw [phase_exhaust_state, phase_retract_state]
  split <;> simp

lemma cleanup_finish_phaseTrace (env : Env) (s : RunState)
    (h : s.currentPhase ≠ TestPhase.EXHAUSTING) :
    (cleanup_finish env s).phaseTrace =
      s.phaseTrace ++
        [TestPhase.EXHAUSTING, TestPhase.RETRACTING_CYLINDERS, TestPhase.COMPLETE] := by
  unfold cleanup_finish
  rw [phase_exhaust_state, phase_retract_state]
  have h1 : (setPhase s TestPhase.EXHAUSTING).phaseTrace =
      s.phaseTrace ++ [TestPhase.EXHAUSTING] := setPhase_phaseTrace_of_ne h
  have h2 : (setPhase (setPhase s TestPhase.EXHAUSTING)
      TestPhase.RETRACTING_CYLINDERS).phaseTrace =
      s.phaseTrace ++ [TestPhase.EXHAUSTING] ++ [TestPhase.RETRACTING_CYLINDERS] := by
    rw [setPhase_phaseTrace_of_ne (by simp), h1]
  split
  · rw [setPhase_phaseTrace_of_ne (by simp)]
    simp only [setResult_phaseTrace, h2]
    simp
  · rw [setPhase_phaseTrace_of_ne (by simp), h2]
    simp

lemma run_test_spec (env : Env) (cfg : TestConfig) :
    (run_test env cfg).result ≠ TestResult.NONE ∧
    (run_test env cfg).resultHistory = [TestResult.NONE, (run_test env cfg).result] ∧
    (run_test env cfg).currentPhase = TestPhase.COMPLETE ∧
    ∃ pre, (run_test env cfg).phaseTrace =
      pre ++ [TestPhase.EXHAUSTING, TestPhase.RETRACTING_CYLINDERS, TestPhase.COMPLETE] := by
  obtain ⟨hne, hhist, hcp1, _, _⟩ := run_primary_spec env cfg
  unfold run_test
  rw [cleanup_finish_result, if_neg hne]
  refine ⟨hne, ?_, cleanup_finish_currentPhase env _, ?_⟩
  · rw [cleanup_finish_resultHistory, if_neg hne, hhist]
  · exact ⟨(run_primary env cfg initState).phaseTrace, cleanup_finish_phaseTrace env _ hcp1⟩

lemma run_primary_cleanup_env_independent (env : Env) (cfg : TestConfig)
    (o1 o2 : ActOutcome) (s : RunState) :
    run_primary { env with exhaustOutcome := o1, retractOutcome := o2 } cfg s =
      run_primary env cfg s := rfl

lemma cleanup_finish_state_env_independent (env1 env2 : Env) (s : RunState) :
    cleanup_finish env1 s = cleanup_finish env2 s := rfl

/-- C2: every run — faulted or not — appends the cleanup phases `Exhausting`,
`RetractingCylinders` and then `Complete` at the end of its phase trace, and
the run's final result does not depend on the outcomes of the two cleanup
phases. -/
theorem C2_cleanup_always_runs (env : Env) (cfg : TestConfig) :
    (∃ pre, (run_test env cfg).phaseTrace =
      pre ++ [TestPhase.EXHAUSTING, TestPhase.RETRACTING_CYLINDERS, TestPhase.COMPLETE]) ∧
    (∀ o1 o2 : ActOutcome,
      (run_test { env with exhaustOutcome := o1, retractOutcome := o2 } cfg).result =
        (run_test env cfg).result) := by
  refine ⟨(run_test_spec env cfg).2.2.2, ?_⟩
  intro o1 o2
  unfold run_test
  rw [run_primary_cleanup_env_independent,
    cleanup_finish_state_env_independent { env with exhaustOutcome := o1, retractOutcome := o2 } env]

/-- C4: in every run the result starts as `NONE` and is assigned exactly once,
to a non-`NONE` value (`PASS`, `FAIL` or `ERROR`) — the assignment history of
`test_result` is exactly `[NONE, r]` — and the run finishes in the `Complete`
phase with a non-`NONE` result. -/
theorem C4_result_set_once (env : Env) (cfg : TestConfig) :
    ∃ r, r ≠ TestResult.NONE ∧
      (run_test env cfg).result = r ∧
      (run_test env cfg).resultHistory = [TestResult.NONE, r] ∧
      (run_test env cfg).currentPhase = TestPhase.COMPLETE := by
  obtain ⟨hne, hhist, hcp, _⟩ := run_test_spec env cfg
  exact ⟨(run_test env cfg).result, hne, rfl, hhist, hcp⟩

lemma phase_extend_ok {env : Env} (h : env.extendOutcome = ActOutcome.ok) (s : RunState) :
    phase_extend_cylinders env s = (setPhase s TestPhase.EXTENDING_CYLINDERS, true) := by
  simp [phase_extend_cylinders, h]

lemma phase_fill_ok {env : Env} (h : env.fillOutcome = ActOutcome.ok) (s : RunState) :
    phase_fill_dut env s = (setPhase s TestPhase.FILLING_DUT, true) := by
  simp [phase_fill_dut, h]

lemma phase_isolate_ok {env : Env} (h : env.isolateOutcome = ActOutcome.ok) (s : RunState) :
    phase_isolate env s = (setPhase s TestPhase.ISOLATING, true) := by
  simp [phase_isolate, h]

/-- C3: (a) the safety check reports unsafe exactly when the pressure read
raised or the pressure strictly exceeds `max_pressure`; (b) a safety
violation at stabilize-poll `k` (earlier polls safe) aborts the stabilize
loop on that very iteration — exactly `k+1` checks run, fewer than the
phase's full `stabilizeIters` — sets the result to `ERROR`, and the run still
ends with the cleanup phases; (c) the same for the 1 Hz testing loop. -/
theorem C3_safety_abort_immediacy :
    (∀ (cfg : TestConfig) (reading : Option ℚ),
      check_safety_limits cfg reading = false ↔
        reading = none ∨ ∃ p, reading = some p ∧ cfg.max_pressure < p) ∧
    (∀ (env : Env) (cfg : TestConfig) (k : ℕ),
      env.extendOutcome = ActOutcome.ok →
      env.fillOutcome = ActOutcome.ok →
      (∀ j, j < k → check_safety_limits cfg (env.stabilizeReadings j) = true) →
      check_safety_limits cfg (env.stabilizeReadings k) = false →
      k < stabilizeIters cfg.stabilize_time →
      (run_test env cfg).result = TestResult.ERROR ∧
      (run_test env cfg).stabilizeChecks = k + 1 ∧
      (run_test env cfg).stabilizeChecks < stabilizeIters cfg.stabilize_time + 1 ∧
      ∃ pre, (run_test env cfg).phaseTrace =
        pre ++ [TestPhase.EXHAUSTING, TestPhase.RETRACTING_CYLINDERS,
          TestPhase.COMPLETE]) ∧
    (∀ (env : Env) (cfg : TestConfig) (k : ℕ),
      env.extendOutcome = ActOutcome.ok →
      env.fillOutcome = ActOutcome.ok →
      (∀ j, check_safety_limits cfg (env.stabilizeReadings j) = true) →
      env.isolateOutcome = ActOutcome.ok →
      (∀ j, j < k → check_safety_limits cfg (env.testSafetyReadings j) = true) →
      (∀ j, j < k → env.testReadings j ≠ none) →
      check_safety_limits cfg (env.testSafetyReadings k) = false →
      k < testIters cfg.test_duration →
      (run_test env cfg).result = TestResult.ERROR ∧
      (run_test env cfg).testChecks = k + 1 ∧
      (run_test env cfg).testChecks < testIters cfg.test_duration + 1 ∧
      ∃ pre, (run_test env cfg).phaseTrace =
        pre ++ [TestPhase.EXHAUSTING, TestPhase.RETRACTING_CYLINDERS,
          TestPhase.COMPLETE]) := by
  refine ⟨?_, ?_, ?_⟩
  · intro cfg reading
    cases reading with
    | none => simp [check_safety_limits]
    | some p =>
      by_cases h : p > cfg.max_pressure
      · simp [check_safety_limits, h]
      · simp [check_safety_limits, h, le_of_not_lt h]
  · intro env cfg k hEok hFok hsafe hfail hk
    have hsafe0 : ∀ j, j < k →
        check_safety_limits cfg (env.stabilizeReadings (0 + j)) = true := by
      intro j hj
      simpa using hsafe j hj
    have hfail0 : check_safety_limits cfg (env.stabilizeReadings (0 + k)) = false := by
      simpa using hfail
    have habort := stabilize_loop_abort cfg env.stabilizeReadings k 0
      (stabilizeIters cfg.stabilize_time)
      (setPhase (setPhase (setPhase initState TestPhase.EXTENDING_CYLINDERS)
        TestPhase.FILLING_DUT) TestPhase.STABILIZING)
      hsafe0 hfail0 hk
    have hprim : run_primary env cfg initState =
        setResult
          { setPhase (setPhase (setPhase initState TestPhase.EXTENDING_CYLINDERS)
              TestPhase.FILLING_DUT) TestPhase.STABILIZING with
            stabilizeChecks :=
              (setPhase (setPhase (setPhase initState TestPhase.EXTENDING_CYLINDERS)
                TestPhase.FILLING_DUT) TestPhase.STABILIZING).stabilizeChecks + k + 1 }
          TestResult.ERROR := by
      unfold run_primary
      rw [phase_extend_ok hEok, stepThen_true, phase_fill_ok hFok, stepThen_true]
      unfold phase_stabilize
      rw [habort, stepThen_false]
    unfold run_test
    rw [hprim]
    refine ⟨?_, ?_, ?_, ?_⟩
    · rw [cleanup_finish_result]
      simp
    · rw [cleanup_finish_stabilizeChecks]
      simp [initState]
    · rw [cleanup_finish_stabilizeChecks]
      simp [initState]
      omega
    · refine ⟨_, cleanup_finish_phaseTrace env _ ?_⟩
      simp
  · intro env cfg k hEok hFok hstab hIok hsafe hsample hfail hk
    have hstabloop := stabilize_loop_success cfg env.stabilizeReadings hstab
      (stabilizeIters cfg.stabilize_time) 0
      (setPhase (setPhase (setPhase initState TestPhase.EXTENDING_CYLINDERS)
        TestPhase.FILLING_DUT) TestPhase.STABILIZING)
    have hsafe0 : ∀ j, j < k →
        check_safety_limits cfg (env.testSafetyReadings (0 + j)) = true := by
      intro j hj
      simpa using hsafe j hj
    have hsample0 : ∀ j, j < k → env.testReadings (0 + j) ≠ none := by
      intro j hj
      simpa using hsample j hj
    have hfail0 : check_safety_limits cfg (env.testSafetyReadings (0 + k)) = false := by
      simpa using hfail
    obtain ⟨g1, g2, g3, g4, g5, g6, g7⟩ := test_loop_abort cfg env.testSafetyReadings
      env.testReadings k 0 (testIters cfg.test_duration) [(0, env.testStartPressure)]
      (setPhase
        (setPhase
          ({ setPhase (setPhase (setPhase initState TestPhase.EXTENDING_CYLINDERS)
              TestPhase.FILLING_DUT) TestPhase.STABILIZING with
            stabilizeChecks :=
              (setPhase (setPhase (setPhase initState TestPhase.EXTENDING_CYLINDERS)
                TestPhase.FILLING_DUT) TestPhase.STABILIZING).stabilizeChecks +
                stabilizeIters cfg.stabilize_time })
          TestPhase.ISOLATING)
        TestPhase.TESTING)
      hsafe0 hsample0 hfail0 hk
    have hprim : run_primary env cfg initState =
        (phase_test env cfg
          (setPhase
            ({ setPhase (setPhase (setPhase initState TestPhase.EXTENDING_CYLINDERS)
                TestPhase.FILLING_DUT) TestPhase.STABILIZING with
              stabilizeChecks :=
                (setPhase (setPhase (setPhase initState TestPhase.EXTENDING_CYLINDERS)
                  TestPhase.FILLING_DUT) TestPhase.STABILIZING).stabilizeChecks +
                  stabilizeIters cfg.stabilize_time })
            TestPhase.ISOLATING)).1 := by
      unfold run_primary
      rw [phase_extend_ok hEok, stepThen_true, phase_fill_ok hFok, stepThen_true]
      unfold phase_stabilize
      rw [hstabloop, stepThen_true, phase_isolate_ok hIok, stepThen_true, stepThen_eq]
      unfold phase_test
      rw [if_neg (by rw [g1]; simp)]
    unfold run_test
    rw [hprim]
    unfold phase_test
    refine ⟨?_, ?_, ?_, ?_⟩
    · rw [cleanup_finish_result, g2]
      simp
    · rw [cleanup_finish_testChecks, g4]
      simp [initState]
    · rw [cleanup_finish_testChecks, g4]
      simp [initState]
      omega
    · refine ⟨_, cleanup_finish_phaseTrace env _ ?_⟩
      rw [g5]
      simp

/-- Witness for C3: the concrete over-pressure run aborts after exactly one
stabilize safety check with result `ERROR`, and the unsafe reading is indeed
reported unsafe. -/
theorem C3_safety_abort_immediacy_witness :
    (run_test envAbort defaultConfig).result = TestResult.ERROR ∧
    (run_test envAbort defaultConfig).stabilizeChecks = 1 ∧
    check_safety_limits defaultConfig (some 20) = false := by
  have hfail : check_safety_limits defaultConfig (envAbort.stabilizeReadings 0) = false := by
    norm_num [check_safety_limits, defaultConfig, envAbort]
  have hiter : 0 < stabilizeIters defaultConfig.stabilize_time := by
    norm_num [stabilizeIters, defaultConfig]
  have h := C3_safety_abort_immediacy.2.1 envAbort defaultConfig 0 rfl rfl
    (fun j hj => absurd hj (Nat.not_lt_zero j)) hfail hiter
  refine ⟨h.1, h.2.1, ?_⟩
  have h3 := (C3_safety_abort_immediacy.1 defaultConfig (some 20)).mpr
    (Or.inr ⟨20, rfl, by norm_num [defaultConfig]⟩)
  exact h3
